import Mathlib

/-!
Verification of the session-lifecycle core of a session broker
(`broker/` Python package): the session store and its pool-claim
compare-and-swap, the circuit breaker, the idle sweep of the connection
monitor, the gateway (Guacamole) REST adapter, the pool pre-warm pass,
the provisioner, the database schema, and the transaction scope of
`get_db_connection`.

The Python source is embedded shallowly: each relevant function becomes an
executable Lean definition over explicit state (the `broker_sessions`
table becomes a list of rows, HTTP traffic becomes scripted responses,
time becomes an `Int` parameter).  Python truthiness and the
dataclass-versus-dict calling conventions that the source mixes are
modelled explicitly where the behaviour depends on them.
-/

namespace Broker

/-! ## Python value helpers

`truthyStr o` is the truth value Python assigns to an optional string
(`None` and `""` are falsy); `truthyTime o` the one it assigns to an
optional numeric timestamp (`None` and `0` are falsy).  `pyOrTime a b`
is Python's `a or b` on such timestamps. -/

def truthyStr : Option String → Bool
  | none => false
  | some s => s != ""

def truthyTime : Option Int → Bool
  | none => false
  | some x => x != 0

def pyOrTime (a b : Option Int) : Option Int :=
  if truthyTime a then a else b

/-! ## The `broker_sessions` table

One row of the `broker_sessions` table (`broker/persistence/database.py`,
migration `001_initial_schema.py`).  Timestamps are epoch seconds as
integers. -/

structure SessionRow where
  sessionId : String
  username : Option String := none
  guacConnectionId : Option String := none
  vncPassword : Option String := none
  containerId : Option String := none
  containerIp : Option String := none
  createdAt : Option Int := none
  startedAt : Option Int := none
  lastActivity : Option Int := none
  updatedAt : Option Int := none
  deriving DecidableEq

abbrev Table := List SessionRow

/-- The `session_id` primary key: a well-formed table has pairwise
distinct session ids. -/
def wellFormed (t : Table) : Prop :=
  (t.map (·.sessionId)).Nodup

instance (t : Table) : Decidable (wellFormed t) := by
  unfold wellFormed; infer_instance

/-- The non-null usernames stored in the table, in row order.  The unique
partial index `idx_sessions_username_unique … WHERE username IS NOT NULL`
(migration 001) demands this list be duplicate-free. -/
def nonNullUsernames (t : Table) : List String :=
  t.filterMap (·.username)

/-- `username = u` is already taken by some row. -/
def usernameTaken (t : Table) (u : String) : Bool :=
  t.any (fun r => r.username == some u)

/-- Errors surfaced by PostgreSQL through psycopg2. -/
inductive DBError where
  | uniqueViolation
  deriving DecidableEq

/-! ## `SessionStore.claim_pool_session` (broker/domain/session.py)

```
UPDATE broker_sessions
SET username = %s, updated_at = CURRENT_TIMESTAMP
WHERE session_id = %s AND username IS NULL
```
returns `cur.rowcount > 0`.  `session_id` is the primary key, so at most
one row matches; the unique partial index raises a unique-violation when
the row being updated would store a username already present on another
row (the enclosing `get_db_connection` then rolls the transaction back,
see below). -/

def claimMatches (sid : String) (r : SessionRow) : Bool :=
  r.sessionId == sid && r.username == none

def claimUpdateRow (sid u : String) (now : Int) (r : SessionRow) : SessionRow :=
  if r.sessionId = sid ∧ r.username = none then
    { r with username := some u, updatedAt := some now }
  else r

def claim_pool_session (sid u : String) (now : Int) (t : Table) :
    Except DBError (Table × Bool) :=
  let matched := t.countP (claimMatches sid)
  if 0 < matched ∧ usernameTaken t u then .error .uniqueViolation
  else .ok (t.map (claimUpdateRow sid u now), decide (0 < matched))

/-! ## `SessionStore.save_session` (broker/domain/session.py)

`INSERT … ON CONFLICT (session_id) DO UPDATE SET col = COALESCE(EXCLUDED.col, old.col)`
for every column except `session_id` and `created_at` (which is only
written on insert); `updated_at` is set to `CURRENT_TIMESTAMP` in both
branches.  A null field in the write therefore never overwrites a stored
non-null value. -/

structure SessionWrite where
  username : Option String := none
  guacConnectionId : Option String := none
  vncPassword : Option String := none
  containerId : Option String := none
  containerIp : Option String := none
  createdAt : Option Int := none
  startedAt : Option Int := none
  lastActivity : Option Int := none
  deriving DecidableEq

def mergeRow (old : SessionRow) (d : SessionWrite) (now : Int) : SessionRow :=
  { old with
    username := d.username <|> old.username
    guacConnectionId := d.guacConnectionId <|> old.guacConnectionId
    vncPassword := d.vncPassword <|> old.vncPassword
    containerId := d.containerId <|> old.containerId
    containerIp := d.containerIp <|> old.containerIp
    startedAt := d.startedAt <|> old.startedAt
    lastActivity := d.lastActivity <|> old.lastActivity
    updatedAt := some now }

def newRowFrom (sid : String) (d : SessionWrite) (now : Int) : SessionRow :=
  { sessionId := sid
    username := d.username
    guacConnectionId := d.guacConnectionId
    vncPassword := d.vncPassword
    containerId := d.containerId
    containerIp := d.containerIp
    createdAt := d.createdAt
    startedAt := d.startedAt
    lastActivity := d.lastActivity
    updatedAt := some now }

/-- The partial unique index rejects a written row whose (non-null)
username is already stored on a different row. -/
def dupUsernameWith (t : Table) (sid : String) : Option String → Bool
  | none => false
  | some u => t.any (fun r => r.sessionId != sid && r.username == some u)

def save_session (sid : String) (d : SessionWrite) (now : Int) (t : Table) :
    Except DBError Table :=
  match t.find? (fun r => r.sessionId == sid) with
  | some old =>
      if dupUsernameWith t sid (mergeRow old d now).username then
        .error .uniqueViolation
      else
        .ok (t.map (fun r => if r.sessionId = sid then mergeRow r d now else r))
  | none =>
      if dupUsernameWith t sid (newRowFrom sid d now).username then
        .error .uniqueViolation
      else
        .ok (t ++ [newRowFrom sid d now])

/-! ## `get_db_connection` (broker/persistence/database.py)

```
conn = psycopg2.connect(**DB_CONFIG)
try:
    yield conn
    conn.commit()
except Exception:
    conn.rollback()
    raise
finally:
    conn.close()
```
A connection carries the durable (committed) table and its own working
view; `commit` publishes the working view, `rollback` discards it,
`close` ends the connection. -/

structure DbConn where
  durable : Table
  working : Table
  isOpen : Bool
  deriving DecidableEq

def pyConnect (db : Table) : DbConn := ⟨db, db, true⟩

def pyCommit (c : DbConn) : DbConn := { c with durable := c.working }

def pyRollback (c : DbConn) : DbConn := { c with working := c.durable }

def pyClose (c : DbConn) : DbConn := { c with isOpen := false }

/-- Run a transaction body under the `get_db_connection` context manager:
commit on normal completion, roll back and re-raise on exception, close
the connection in both cases. -/
def get_db_connection {α : Type} (body : Table → Except DBError (Table × α))
    (db : Table) : DbConn × Except DBError α :=
  let conn := pyConnect db
  match body conn.working with
  | .ok (w, a) => (pyClose (pyCommit { conn with working := w }), .ok a)
  | .error e => (pyClose (pyRollback conn), .error e)

/-! ## `CircuitBreaker` (broker/resilience.py)

State machine with states CLOSED / OPEN / HALF_OPEN, a consecutive
failure counter and the monotonic time of the last failure.  `cbCall`
mirrors `CircuitBreaker.call`: while OPEN and inside the recovery
window it raises `CircuitOpenError(retry_after)` without running the
wrapped function; once the window has elapsed it moves to HALF_OPEN and
lets the call through; the wrapped call's outcome is then recorded by
`_record_success` / `_record_failure`. -/

inductive CircuitState where
  | closed
  | open
  | halfOpen
  deriving DecidableEq

structure CircuitBreaker where
  state : CircuitState
  failureCount : Nat
  lastFailureTime : Int
  failureThreshold : Nat
  recoveryTimeout : Int
  deriving DecidableEq

def CircuitBreaker.mk0 (failureThreshold : Nat) (recoveryTimeout : Int) :
    CircuitBreaker :=
  ⟨.closed, 0, 0, failureThreshold, recoveryTimeout⟩

/-- Outcome of one `call`: either rejected with `retry_after` (the
wrapped function was not invoked) or executed with the wrapped call's
success bit. -/
inductive CbOutcome where
  | rejected (retryAfter : Int)
  | executed (ok : Bool)
  deriving DecidableEq

def recordSuccess (b : CircuitBreaker) : CircuitBreaker :=
  { b with
    failureCount := 0
    state := if b.state = .halfOpen then .closed else b.state }

def recordFailure (b : CircuitBreaker) (now : Int) : CircuitBreaker :=
  let b := { b with failureCount := b.failureCount + 1, lastFailureTime := now }
  if b.state = .halfOpen then { b with state := .open }
  else if b.state = .closed ∧ b.failureThreshold ≤ b.failureCount then
    { b with state := .open }
  else b

def cbCall (b : CircuitBreaker) (now : Int) (succeeds : Bool) :
    CbOutcome × CircuitBreaker :=
  -- locked section of `call`: lazy OPEN → HALF_OPEN transition or rejection
  let b :=
    if b.state = .open ∧ b.recoveryTimeout ≤ now - b.lastFailureTime then
      { b with state := .halfOpen }
    else b
  if b.state = .open then
    (.rejected (max 0 (b.recoveryTimeout - (now - b.lastFailureTime))), b)
  else
    -- the wrapped function runs outside the lock
    if succeeds then (.executed true, recordSuccess b)
    else (.executed false, recordFailure b now)

/-- Run a sequence of calls, each given as (time, wrapped call succeeds). -/
def cbRun (b : CircuitBreaker) : List (Int × Bool) → List CbOutcome × CircuitBreaker
  | [] => ([], b)
  | (now, s) :: rest =>
      let (o, b') := cbCall b now s
      let (os, bf) := cbRun b' rest
      (o :: os, bf)

/-! ## `wait_for_vnc` (broker/domain/container.py)

Retries a 1s TCP connect every 0.5s until success or deadline; `probe i`
is the outcome of the i-th connect attempt, `attempts` the number of
attempts the deadline allows. -/

def wait_for_vnc (probe : Nat → Bool) (attempts : Nat) : Bool :=
  (List.range attempts).any probe

/-! ## `ConnectionMonitor.cleanup_inactive_containers`
(broker/services/connection_monitor.py)

Every 60 monitor ticks the sweep walks `SessionStore.list_sessions()`,
skips sessions without a container id, sessions whose connection id is
currently active, and sessions without any activity timestamp; when
`now - (last_activity or started_at)` exceeds the configured timeout it
destroys the container, sets the in-memory `container_id`/`container_ip`
to `None` and calls `SessionStore.save_session` with the resulting data.
The pass returns the destroyed container ids in order. -/

def sessionIdleEligible (activeConnections : List String) (now timeoutSeconds : Int)
    (s : SessionRow) : Bool :=
  if ¬ truthyStr s.containerId then false
  else if truthyStr s.guacConnectionId ∧
      (s.guacConnectionId.getD "") ∈ activeConnections then false
  else
    let la := pyOrTime s.lastActivity s.startedAt
    if ¬ truthyTime la then false
    else decide (timeoutSeconds < now - la.getD 0)

/-- The write `cleanup_inactive_containers` hands to `save_session`: the
fetched row with its container fields set to `None`. -/
def clearedWrite (s : SessionRow) : SessionWrite :=
  { username := s.username
    guacConnectionId := s.guacConnectionId
    vncPassword := s.vncPassword
    containerId := none
    containerIp := none
    createdAt := s.createdAt
    startedAt := s.startedAt
    lastActivity := s.lastActivity }

def cleanupLoop (activeConnections : List String) (now timeoutSeconds : Int) :
    List SessionRow → Table → Table × List String
  | [], t => (t, [])
  | s :: rest, t =>
      if sessionIdleEligible activeConnections now timeoutSeconds s then
        match save_session s.sessionId (clearedWrite s) now t with
        | .ok t' =>
            let (tf, ds) := cleanupLoop activeConnections now timeoutSeconds rest t'
            (tf, s.containerId.getD "" :: ds)
        | .error _ =>
            -- the surrounding try/except aborts the pass on a DB error
            (t, [s.containerId.getD ""])
      else cleanupLoop activeConnections now timeoutSeconds rest t

def cleanup_inactive_containers (timeoutMinutes : Int)
    (activeConnections : List String) (now : Int) (t : Table) :
    Table × List String :=
  if timeoutMinutes ≤ 0 then (t, [])
  else cleanupLoop activeConnections now (timeoutMinutes * 60) t t

/-! ## `GuacamoleAPI` (broker/domain/guacamole.py)

The adapter keeps `(token, token_expires)`.  `authenticate` POSTs
`/api/tokens` and stores a fresh token valid for 3500s; `ensure_auth`
re-authenticates only when the token is absent/empty or past its expiry;
`get_users` calls `ensure_auth`, issues one GET and calls
`raise_for_status` on the response — any non-2xx status, 403 included,
raises immediately.  HTTP traffic is scripted: `authStatus`/`authToken`
describe the token endpoint, `userResponses` the successive responses of
the users endpoint, consumed one per GET issued. -/

structure HttpResp where
  status : Nat
  keys : List String := []
  deriving DecidableEq

inductive HttpReq where
  | postTokens
  | getUsers
  deriving DecidableEq

inductive HttpError where
  | httpError (status : Nat)
  deriving DecidableEq

structure AdapterState where
  token : Option String
  tokenExpires : Int
  deriving DecidableEq

structure GuacWorld where
  now : Int
  authStatus : Nat
  authToken : String
  userResponses : List HttpResp
  deriving DecidableEq

def authenticate (w : GuacWorld) (_st : AdapterState) :
    Except HttpError AdapterState × List HttpReq :=
  if 400 ≤ w.authStatus then (.error (.httpError w.authStatus), [.postTokens])
  else (.ok { token := some w.authToken, tokenExpires := w.now + 3500 }, [.postTokens])

def ensure_auth (w : GuacWorld) (st : AdapterState) :
    Except HttpError AdapterState × List HttpReq :=
  if ¬ truthyStr st.token ∨ st.tokenExpires < w.now then authenticate w st
  else (.ok st, [])

structure GuacRun (α : Type) where
  result : Except HttpError α
  requests : List HttpReq
  finalState : AdapterState

def get_users (w : GuacWorld) (st : AdapterState) : GuacRun (List String) :=
  match ensure_auth w st with
  | (.error e, reqs) => ⟨.error e, reqs, st⟩
  | (.ok st1, reqs) =>
      let resp := w.userResponses.headD { status := 503 }
      if 400 ≤ resp.status then
        ⟨.error (.httpError resp.status), reqs ++ [.getUsers], st1⟩
      else ⟨.ok resp.keys, reqs ++ [.getUsers], st1⟩

/-- The property claimed of the adapter: its HTTP calls go through the
circuit breaker guarding the gateway, so while that breaker is OPEN and
inside the recovery window no HTTP request is issued. -/
def adapterGuardedByBreaker : Prop :=
  ∀ (b : CircuitBreaker) (w : GuacWorld) (st : AdapterState),
    b.state = .open → w.now - b.lastFailureTime < b.recoveryTimeout →
    (get_users w st).requests = []

/-! ## The two `broker_sessions` schemas

`init_database()` (broker/persistence/database.py — the path `app.py`
runs at startup) declares `username VARCHAR(255) NOT NULL UNIQUE`;
migration 001 (broker/migrations/versions/001_initial_schema.py)
declares `username VARCHAR(255)` nullable with the unique partial index
`ON broker_sessions(username) WHERE username IS NOT NULL`. -/

def init_database_admits (t : Table) : Prop :=
  (∀ r ∈ t, r.username.isSome) ∧
    (t.map (·.sessionId)).Nodup ∧ (nonNullUsernames t).Nodup

instance (t : Table) : Decidable (init_database_admits t) := by
  unfold init_database_admits; infer_instance

def migration_001_admits (t : Table) : Prop :=
  (t.map (·.sessionId)).Nodup ∧ (nonNullUsernames t).Nodup

instance (t : Table) : Decidable (migration_001_admits t) := by
  unfold migration_001_admits; infer_instance

/-! ## Dataclass versus dict at the store boundary

`SessionStore` returns typed `SessionData` dataclass instances
(`_row_to_dict` in broker/domain/session.py builds `SessionData(...)`,
broker/domain/types.py defines no `get` method on it), while
`provision_user_connection` and `UserSyncService.prewarm_containers`
access the received sessions with `session.get(key)` / `session[key]`,
the dict protocol.  `pyAsDict` models the first such access: on a
dataclass it raises `AttributeError`, on a plain dict every key access
succeeds. -/

inductive StoreObj where
  | dataclassObj (r : SessionRow)
  | dictObj (r : SessionRow)
  deriving DecidableEq

inductive PyError where
  | attributeError
  deriving DecidableEq

def pyAsDict : StoreObj → Except PyError SessionRow
  | .dataclassObj _ => .error .attributeError
  | .dictObj r => .ok r

/-! ## `UserSyncService.prewarm_containers` (broker/services/user_sync.py)

Invoked once per sync tick when the pool is enabled.  Skips the cycle at
max capacity or when resources deny a start (after an optional
force-kill retry), fetches `get_sessions_needing_containers()`, caps the
work at `min(batch_size, max_containers - current_count, len(sessions))`
and, per session: reads `session.get("username")` (skipping falsy
usernames), re-checks resources, spawns, probes the VNC port, and only
on probe success persists the session (and updates the catalog entry
when one exists); on probe timeout it destroys the freshly spawned
workload.  The `username = session.get(...)` read sits *outside* the
per-session try/except, so an `AttributeError` there aborts the whole
pass and is swallowed by the outer handler. -/

structure PrewarmCfg where
  enabled : Bool
  maxContainers : Nat
  batchSize : Nat
  forceKill : Bool
  deriving DecidableEq

structure PrewarmEnv where
  currentCount : Nat
  canStart : Nat → Bool
  killSucceeds : Nat → Bool
  freshPw : Nat → String
  spawnResult : Nat → String × String
  probe : Nat → Bool
  now : Int

inductive PrewarmEvent where
  | spawned (sessionId : String) (username : Option String)
  | destroyed (containerId : String)
  | savedSession (sessionId : String) (d : SessionWrite)
  | updatedConnection (connId : String)
  deriving DecidableEq

structure PrewarmResult where
  events : List PrewarmEvent
  swallowedError : Bool
  deriving DecidableEq

/-- `can_start_container()` gate with the force-kill retry; returns the
verdict and the advanced check/kill indices. -/
def resourceGate (cfg : PrewarmCfg) (env : PrewarmEnv) (ci ki : Nat) :
    Bool × Nat × Nat :=
  if env.canStart ci then (true, ci + 1, ki)
  else if cfg.forceKill then
    if env.killSucceeds ki then (env.canStart (ci + 1), ci + 2, ki + 1)
    else (false, ci + 1, ki + 1)
  else (false, ci + 1, ki)

def prewarmLoop (cfg : PrewarmCfg) (env : PrewarmEnv) :
    List StoreObj → Nat → Nat → Nat → List PrewarmEvent × Bool
  | [], _, _, _ => ([], false)
  | s :: rest, ci, ki, j =>
      match pyAsDict s with
      | .error _ => ([], true)
      | .ok r =>
          if ¬ truthyStr r.username then prewarmLoop cfg env rest ci ki j
          else
            match resourceGate cfg env ci ki with
            | (false, _, _) => ([], false)
            | (true, ci', ki') =>
                let pw := if truthyStr r.vncPassword then r.vncPassword.getD ""
                          else env.freshPw j
                let (cid, ip) := env.spawnResult j
                let ev1 := PrewarmEvent.spawned r.sessionId r.username
                if env.probe j then
                  let w : SessionWrite :=
                    { username := r.username
                      guacConnectionId := r.guacConnectionId
                      vncPassword := some pw
                      containerId := some cid
                      containerIp := some ip
                      createdAt := r.createdAt
                      startedAt := some env.now
                      lastActivity := r.lastActivity }
                  let evs := [ev1, .savedSession r.sessionId w] ++
                    (if truthyStr r.guacConnectionId then
                      [PrewarmEvent.updatedConnection (r.guacConnectionId.getD "")]
                    else [])
                  let (evr, sw) := prewarmLoop cfg env rest ci' ki' (j + 1)
                  (evs ++ evr, sw)
                else
                  let (evr, sw) := prewarmLoop cfg env rest ci' ki' (j + 1)
                  (ev1 :: .destroyed cid :: evr, sw)

def prewarm_containers (cfg : PrewarmCfg) (env : PrewarmEnv)
    (sessions : List StoreObj) : PrewarmResult :=
  if ¬ cfg.enabled then ⟨[], false⟩
  else if cfg.maxContainers ≤ env.currentCount then ⟨[], false⟩
  else
    match resourceGate cfg env 0 0 with
    | (false, _, _) => ⟨[], false⟩
    | (true, ci, ki) =>
        if sessions.isEmpty then ⟨[], false⟩
        else
          let slots := min cfg.batchSize
            (min (cfg.maxContainers - env.currentCount) sessions.length)
          let (evs, sw) := prewarmLoop cfg env (sessions.take slots) ci ki 0
          ⟨evs, sw⟩

def spawnEvents (evs : List PrewarmEvent) : List PrewarmEvent :=
  evs.filter fun e => match e with | .spawned _ _ => true | _ => false

/-! ## `provision_user_connection` (broker/services/provisioning.py)

Flow: (1) if the stored session for the user has a truthy
`guac_connection_id` and a truthy `container_id`, return the stored
connection id; (2) profile/group-config collaborator calls (failures
logged, never fatal — not modelled as effects); (3) walk the pool
oldest-first, claiming the orchestrator labels and then the store row,
first double success wins; (4) on pool miss spawn a fresh workload under
a fresh session id and password; (5) probe the VNC port, on failure
destroy the workload and raise `RuntimeError`; (6) create the catalog
entry, grant READ, optionally create the home placeholder; (7) persist
the session (preserving `created_at` for a claimed pool row).

All `session.get(...)`/`session[...]` accesses on store results go
through `pyAsDict`; none of them sit inside a try/except, so an
`AttributeError` propagates out of `provision_user_connection`. -/

structure ProvisionEnv where
  existingSession : Option StoreObj
  poolSessions : List StoreObj
  claimContainerOk : Nat → Bool
  claimSessionOk : Nat → Bool
  freshSessionId : String
  freshPassword : String
  spawnResult : String × String
  probe : Nat → Bool
  probeAttempts : Nat
  connectionName : String
  connId : String
  forceHomePage : Bool
  now : Int

inductive ProvisionEvent where
  | claimedContainer (containerId : Option String) (username : String)
  | claimedSession (sessionId : String) (username : String)
  | spawned (sessionId : String) (username : Option String)
  | destroyed (containerId : Option String)
  | createdConnection (name : String) (hostname : Option String)
  | grantedPermission (username connId : String)
  | createdHomeConnection (username : String)
  | savedSession (sessionId : String) (d : SessionWrite)
  deriving DecidableEq

inductive ProvisionError where
  | attributeError
  | vncTimeout (username : String)
  deriving DecidableEq

/-- Fields the pool loop extracts from a claimed pool session. -/
structure ClaimedPool where
  sessionId : String
  containerId : Option String
  containerIp : Option String
  vncPassword : Option String
  deriving DecidableEq

/-- The claim loop: `claim_container` (orchestrator labels) then
`claim_pool_session` (store CAS); the first candidate winning both is
used, losers make the caller try the next candidate. -/
def provisionPoolLoop (username : String) (env : ProvisionEnv) :
    List StoreObj → Nat →
    Except ProvisionError (Option ClaimedPool × List ProvisionEvent)
  | [], _ => .ok (none, [])
  | ps :: rest, i =>
      match pyAsDict ps with
      | .error _ => .error .attributeError
      | .ok r =>
          if env.claimContainerOk i then
            let ev := ProvisionEvent.claimedContainer r.containerId username
            if env.claimSessionOk i then
              .ok (some ⟨r.sessionId, r.containerId, r.containerIp, r.vncPassword⟩,
                [ev, .claimedSession r.sessionId username])
            else
              match provisionPoolLoop username env rest (i + 1) with
              | .error e => .error e
              | .ok (c, evs) => .ok (c, ev :: evs)
          else
            provisionPoolLoop username env rest (i + 1)

def provision_user_connection (username : String) (env : ProvisionEnv) :
    Except ProvisionError String × List ProvisionEvent :=
  match env.existingSession with
  | some obj =>
      match pyAsDict obj with
      | .error _ => (.error .attributeError, [])
      | .ok r =>
          if truthyStr r.guacConnectionId ∧ truthyStr r.containerId then
            (.ok (r.guacConnectionId.getD ""), [])
          else provisionBody username env
  | none => provisionBody username env
where
  provisionBody (username : String) (env : ProvisionEnv) :
      Except ProvisionError String × List ProvisionEvent :=
    match provisionPoolLoop username env env.poolSessions 0 with
    | .error e => (.error e, [])
    | .ok (claimed, evs0) =>
        let claimedFromPool := claimed.isSome
        let (sid, cid, ip, pw, evs1) :=
          match claimed with
          | some c => (c.sessionId, c.containerId, c.containerIp, c.vncPassword, evs0)
          | none =>
              let (cid, ip) := env.spawnResult
              (env.freshSessionId, some cid, some ip, some env.freshPassword,
                evs0 ++ [ProvisionEvent.spawned env.freshSessionId (some username)])
        if ¬ wait_for_vnc env.probe env.probeAttempts then
          (.error (.vncTimeout username), evs1 ++ [ProvisionEvent.destroyed cid])
        else
          let evs2 := evs1 ++
            [ProvisionEvent.createdConnection env.connectionName ip,
             .grantedPermission username env.connId] ++
            (if env.forceHomePage then [ProvisionEvent.createdHomeConnection username]
             else []) ++
            [ProvisionEvent.savedSession sid
              { username := some username
                guacConnectionId := some env.connId
                vncPassword := pw
                containerId := cid
                containerIp := ip
                createdAt := if claimedFromPool then none else some env.now
                startedAt := some env.now }]
          (.ok env.connId, evs2)

/-! ## Serialized concurrent claims

PostgreSQL serializes the claim UPDATEs of concurrent provisioners on
one row; a serial execution of the CAS per caller models any
interleaving.  A claim that raises (unique violation) is rolled back by
`get_db_connection`, leaves the table unchanged and does not return
true. -/

def runClaims (sid : String) (now : Int) : List String → Table → Table × List Bool
  | [], t => (t, [])
  | v :: rest, t =>
      match claim_pool_session sid v now t with
      | .ok (t', b) =>
          let (tf, bs) := runClaims sid now rest t'
          (tf, b :: bs)
      | .error _ =>
          let (tf, bs) := runClaims sid now rest t
          (tf, false :: bs)

/-! ## Concrete fixtures used to evaluate the embedded code -/

/-- A claimed user session as stored by a successful provision: Alice
owns catalog entry `c1` and workload `w1`, last active at 99400. -/
def aliceRow : SessionRow :=
  { sessionId := "s1", username := some "alice",
    guacConnectionId := some "c1", vncPassword := some "pw",
    containerId := some "w1", containerIp := some "10.0.0.5",
    createdAt := some 1000, startedAt := some 1000,
    lastActivity := some 99400, updatedAt := some 1000 }

/-- A session lacking a running workload, as
`get_sessions_needing_containers` reports it. -/
def aliceNeedsRow : SessionRow :=
  { sessionId := "s1", username := some "alice",
    guacConnectionId := some "c1", vncPassword := some "pw",
    createdAt := some 1000 }

/-- An unclaimed pool row: no username, workload `w1`. -/
def poolTable : Table :=
  [{ sessionId := "p1", vncPassword := some "pw",
     containerId := some "w1", containerIp := some "10.0.0.3",
     createdAt := some 10 }]

/-- Pre-warm environment: no running workloads, resources always
available, spawn yields `cNew` at `10.0.0.9`, every probe succeeds. -/
def prewarmEnvFix : PrewarmEnv :=
  { currentCount := 0
    canStart := fun _ => true
    killSucceeds := fun _ => true
    freshPw := fun _ => "genpw"
    spawnResult := fun _ => ("cNew", "10.0.0.9")
    probe := fun _ => true
    now := 100000 }

/-- Provision environment for a user whose session lookup yields `obj`:
empty pool, fresh spawn `cX` at `10.0.0.7`, probe always fails. -/
def provisionEnvWith (obj : Option StoreObj) : ProvisionEnv :=
  { existingSession := obj
    poolSessions := []
    claimContainerOk := fun _ => false
    claimSessionOk := fun _ => false
    freshSessionId := "f1"
    freshPassword := "fp"
    spawnResult := ("cX", "10.0.0.7")
    probe := fun _ => false
    probeAttempts := 3
    connectionName := "Virtual Desktop"
    connId := "c9"
    forceHomePage := true
    now := 100000 }

/-! # Theorems -/

/-- Claim C3.  The idle sweep, run on a session idle for 10 minutes
(idle_timeout 3 minutes, no active connection), destroys the workload
exactly once — but the stored session row does **not** end with
`workload_id`/`workload_ip` null: `save_session`'s COALESCE upsert
ignores the null fields of the write, so the row keeps the stale
`container_id = "w1"` and `container_ip = "10.0.0.5"` (only
`updated_at` changes).  This contradicts the claimed post-state of the
sweep. -/
theorem cleanup_idle_sweep_keeps_stale_container_id :
    cleanup_inactive_containers 3 [] 100000 [aliceRow] =
      ([{ aliceRow with updatedAt := some 100000 }], ["w1"]) := by
  decide

/-- Claim C4.  With a valid cached token and the users endpoint
answering 403 then 200, `get_users` raises the 403 after a single GET:
no token invalidation, no re-authentication POST, no retry — the
scripted 200 retry response is never consumed and the stale token is
kept.  This contradicts the claimed invalidate-and-retry-once
behaviour (which the repository's own `TestReauthOn403` expects). -/
theorem get_users_no_reauth_on_403 :
    get_users
        { now := 100000, authStatus := 200, authToken := "fresh-token",
          userResponses := [{ status := 403 }, { status := 200, keys := ["user1"] }] }
        { token := some "stale-token", tokenExpires := 103000 } =
      ⟨.error (.httpError 403), [.getUsers],
       { token := some "stale-token", tokenExpires := 103000 }⟩ := by
  rfl

/-- Claim C6.  A pool-manager invocation given one session needing a
container (pool enabled, capacity 10, batch 3, resources available)
spawns **nothing**: the loop's `session.get("username")` raises
`AttributeError` on the `SessionData` dataclass the store returns, and
the outer handler swallows it.  Had the store handed over plain dicts,
the pass would spawn for the session's existing user — with
`username = some "alice"`, not the claimed `username = null` pool
entry. -/
theorem prewarm_zero_spawns_on_dataclass :
    prewarm_containers ⟨true, 10, 3, true⟩ prewarmEnvFix
        [.dataclassObj aliceNeedsRow] = ⟨[], true⟩
    ∧ (prewarm_containers ⟨true, 10, 3, true⟩ prewarmEnvFix
        [.dictObj aliceNeedsRow]).events =
      [.spawned "s1" (some "alice"),
       .savedSession "s1"
         { username := some "alice", guacConnectionId := some "c1",
           vncPassword := some "pw", containerId := some "cNew",
           containerIp := some "10.0.0.9", createdAt := some 1000,
           startedAt := some 100000, lastActivity := none },
       .updatedConnection "c1"] := by
  exact ⟨by decide, by decide⟩

/-- Claim C7.  For a user whose stored session has both a connection id
(`c1`) and a workload (`w1`), `provision_user_connection` does not
return `c1`: the early-return check calls `existing.get(...)` on the
`SessionData` dataclass returned by `get_session_by_username`, which
raises `AttributeError`.  Only if the store handed over a plain dict
(as the repository's test fixture does) would the call return `c1`
with no spawn, claim, or catalog effect. -/
theorem provision_existing_session_raises :
    provision_user_connection "alice"
        (provisionEnvWith (some (.dataclassObj aliceRow))) =
      (.error .attributeError, [])
    ∧ provision_user_connection "alice"
        (provisionEnvWith (some (.dictObj aliceRow))) = (.ok "c1", []) := by
  exact ⟨rfl, rfl⟩

/-- Claim C9.  Two unclaimed pool rows (username NULL) satisfy the
migration-001 schema (nullable `username`, unique partial index over
non-null usernames) — but the schema `init_database()` actually creates
at startup declares `username NOT NULL UNIQUE` and rejects even a
single NULL-username row. -/
theorem sessions_schema_null_username_rows :
    migration_001_admits
        [{ sessionId := "p1", containerId := some "w1" },
         { sessionId := "p2", containerId := some "w2" }]
    ∧ ¬ init_database_admits [{ sessionId := "p1", containerId := some "w1" }]
    ∧ ¬ init_database_admits
        [{ sessionId := "p1", containerId := some "w1" },
         { sessionId := "p2", containerId := some "w2" }] := by
  exact ⟨by decide, by decide, by decide⟩

/-- Helper: an `ensure_auth` failure comes from `authenticate`, whose
HTTP trace is the single token POST. -/
theorem ensure_auth_error_requests (w : GuacWorld) (st : AdapterState)
    (e : HttpError) (reqs : List HttpReq)
    (h : ensure_auth w st = (.error e, reqs)) : reqs = [.postTokens] := by
  unfold ensure_auth authenticate at h
  split at h
  · split at h <;> simp_all
  · simp_all

/-- Claim C5 (counterexample).  The gateway adapter is not guarded by
the circuit breaker: with a breaker for the gateway dependency OPEN and
well inside its recovery window, `get_users` still issues an HTTP
request. -/
theorem adapter_not_guarded_by_breaker_cex : ¬ adapterGuardedByBreaker := by
  intro h
  have h5 := h ⟨.open, 5, 0, 5, 30⟩
      { now := 10, authStatus := 200, authToken := "tok",
        userResponses := [{ status := 200, keys := ["u"] }] }
      { token := some "tok", tokenExpires := 5000 } rfl (by decide)
  exact absurd h5 (by decide)

/-- Claim C5 (amended).  The adapter issues its HTTP traffic
unconditionally: `get_users` performs at least one HTTP request in
every state, independent of any circuit breaker (no breaker appears in
its control flow). -/
theorem get_users_always_issues_http (w : GuacWorld) (st : AdapterState) :
    (get_users w st).requests ≠ [] := by
  unfold get_users
  rcases h : ensure_auth w st with ⟨res, reqs⟩
  cases res with
  | error e =>
      have hr := ensure_auth_error_requests w st e reqs h
      simp [hr]
  | ok st1 =>
      split
      · simp_all
      · dsimp only
        split <;> simp

/-- Claim C10.  `get_db_connection` gives every session-store operation
transaction scope: a body that raises is rolled back (the durable table
is exactly the initial one) and the same error propagates; a body that
completes normally is committed (the durable table is the body's
result); in both cases the connection ends closed. -/
theorem get_db_connection_transaction_scope {α : Type}
    (body : Table → Except DBError (Table × α)) (db : Table) :
    (get_db_connection body db).1.isOpen = false
    ∧ (∀ e, body db = .error e →
        get_db_connection body db = (⟨db, db, false⟩, .error e))
    ∧ (∀ t' a, body db = .ok (t', a) →
        get_db_connection body db = (⟨t', t', false⟩, .ok a)) := by
  refine ⟨?_, ?_, ?_⟩ <;>
    · unfold get_db_connection pyConnect pyCommit pyRollback pyClose
      cases h : body db <;> simp_all

/-- Witness for C10 at a failing and a succeeding body over the empty
table. -/
theorem get_db_connection_transaction_scope_witness :
    get_db_connection
        (fun _ : Table => (.error .uniqueViolation : Except DBError (Table × Nat))) []
      = (⟨[], [], false⟩, .error .uniqueViolation)
    ∧ get_db_connection
        (fun t : Table => (.ok (t ++ [{ sessionId := "s1" }], 7) : Except DBError (Table × Nat))) []
      = (⟨[{ sessionId := "s1" }], [{ sessionId := "s1" }], false⟩, .ok 7) := by
  constructor
  · exact (get_db_connection_transaction_scope _ []).2.1 .uniqueViolation rfl
  · exact (get_db_connection_transaction_scope _ []).2.2 [{ sessionId := "s1" }] 7 rfl

/-- Claim C8.  Whenever a `provision_user_connection` call reaches the
VNC readiness probe and the probe does not succeed within its deadline
(`wait_for_vnc` is false), the call destroys the spawned workload
exactly once, persists no session row (`savedSession` never occurs —
its trace is exactly spawn then destroy), and fails with the
provision-failed `RuntimeError` instead of returning a connection id.
In this code base the probe is reachable only on the fresh-spawn path
(a non-empty pool or an existing session raises `AttributeError`
before any probe). -/
theorem provision_probe_timeout_destroys_and_fails
    (username : String) (env : ProvisionEnv)
    (hex : env.existingSession = none)
    (hpool : env.poolSessions = [])
    (hprobe : wait_for_vnc env.probe env.probeAttempts = false) :
    provision_user_connection username env =
      (.error (.vncTimeout username),
        [.spawned env.freshSessionId (some username),
         .destroyed (some env.spawnResult.1)]) := by
  unfold provision_user_connection provision_user_connection.provisionBody
  rw [hex, hpool]
  unfold provisionPoolLoop
  rcases hs : env.spawnResult with ⟨cid, ip⟩
  simp [hprobe, hs]

/-- Witness for C8: a concrete environment whose probe always fails. -/
theorem provision_probe_timeout_witness :
    (provisionEnvWith none).existingSession = none
    ∧ (provisionEnvWith none).poolSessions = []
    ∧ wait_for_vnc (provisionEnvWith none).probe (provisionEnvWith none).probeAttempts = false
    ∧ provision_user_connection "bob" (provisionEnvWith none) =
        (.error (.vncTimeout "bob"),
          [.spawned "f1" (some "bob"), .destroyed (some "cX")]) := by
  refine ⟨rfl, rfl, by decide, ?_⟩
  exact provision_probe_timeout_destroys_and_fails "bob" (provisionEnvWith none)
    rfl rfl (by decide)

/-! Circuit-breaker helper lemmas -/

theorem cbCall_closed (b : CircuitBreaker) (now : Int) (s : Bool)
    (h : b.state = .closed) :
    cbCall b now s =
      if s then (.executed true, recordSuccess b)
      else (.executed false, recordFailure b now) := by
  unfold cbCall
  simp [h]

theorem cbCall_open_rejects (b : CircuitBreaker) (now : Int) (s : Bool)
    (h : b.state = .open)
    (hlt : now - b.lastFailureTime < b.recoveryTimeout) :
    cbCall b now s =
      (.rejected (b.recoveryTimeout - (now - b.lastFailureTime)), b) := by
  unfold cbCall
  have hnotrec : ¬ (b.state = .open ∧
      b.recoveryTimeout ≤ now - b.lastFailureTime) := by
    rintro ⟨_, hle⟩; omega
  simp only [if_neg hnotrec, if_pos h]
  rw [max_eq_right (by omega : (0 : Int) ≤ b.recoveryTimeout - (now - b.lastFailureTime))]

theorem recordFailure_closed_stay (b : CircuitBreaker) (now : Int)
    (h : b.state = .closed) (hlt : b.failureCount + 1 < b.failureThreshold) :
    recordFailure b now =
      { b with failureCount := b.failureCount + 1, lastFailureTime := now } := by
  unfold recordFailure
  simp [h, Nat.not_le.mpr hlt]

theorem recordFailure_closed_trip (b : CircuitBreaker) (now : Int)
    (h : b.state = .closed) (hge : b.failureThreshold ≤ b.failureCount + 1) :
    recordFailure b now =
      { b with failureCount := b.failureCount + 1, lastFailureTime := now,
               state := .open } := by
  unfold recordFailure
  simp [h, hge]

theorem cbRun_cons (b : CircuitBreaker) (now : Int) (s : Bool)
    (rest : List (Int × Bool)) :
    cbRun b ((now, s) :: rest) =
      ((cbCall b now s).1 :: (cbRun (cbCall b now s).2 rest).1,
       (cbRun (cbCall b now s).2 rest).2) := by
  rcases hc : cbCall b now s with ⟨o, b2⟩
  rcases h2 : cbRun b2 rest with ⟨os, bf⟩
  simp [cbRun, hc, h2]

/-- Consecutive failures from CLOSED: each wrapped call executes, and the
breaker trips to OPEN exactly when the counter reaches the threshold. -/
theorem cbRun_failures :
    ∀ (ts : List Int) (b : CircuitBreaker), b.state = .closed →
      b.failureCount + ts.length = b.failureThreshold → ts ≠ [] →
      (cbRun b (ts.map fun x => (x, false))).1 =
          ts.map (fun _ => CbOutcome.executed false)
        ∧ (cbRun b (ts.map fun x => (x, false))).2.state = .open := by
  intro ts
  induction ts with
  | nil => intro b _ _ hne; exact absurd rfl hne
  | cons x rest ih =>
      intro b hst hcount _
      cases rest with
      | nil =>
          have htrip : b.failureThreshold ≤ b.failureCount + 1 := by
            simp at hcount; omega
          have hcb : cbCall b x false =
              (.executed false,
               { b with failureCount := b.failureCount + 1, lastFailureTime := x,
                        state := .open }) := by
            rw [cbCall_closed b x false hst,
                recordFailure_closed_trip b x hst htrip]
            simp
          rw [List.map_cons, List.map_nil, cbRun_cons, hcb]
          simp [cbRun]
      | cons y rest2 =>
          have hlt : b.failureCount + 1 < b.failureThreshold := by
            simp at hcount; omega
          have hcb : cbCall b x false =
              (.executed false,
               { b with failureCount := b.failureCount + 1,
                        lastFailureTime := x }) := by
            rw [cbCall_closed b x false hst,
                recordFailure_closed_stay b x hst hlt]
            simp
          have ih2 := ih { b with failureCount := b.failureCount + 1,
                                  lastFailureTime := x }
            (by simpa using hst) (by simp at hcount ⊢; omega) (by simp)
          constructor
          · rw [List.map_cons, cbRun_cons, hcb]
            simpa using ih2.1
          · rw [List.map_cons, cbRun_cons, hcb]
            simpa using ih2.2

/-- Claim C2.  Circuit-breaker lifecycle, for any threshold `F ≥ 1` and
recovery timeout `R`, starting CLOSED with a zero counter:
(a) `F` consecutive failed calls all reach the wrapped function and
leave the breaker OPEN; (b) a call while OPEN with elapsed time
strictly below `R` is rejected with `retry_after = R - elapsed`, the
wrapped function not invoked and the breaker unchanged; (c) once
`elapsed ≥ R` the next call is the single allowed probe: it executes,
success closes the breaker (counter reset), failure re-opens it with
the recovery timer reset to the probe time so that any call within `R`
of the failed probe is rejected again. -/
theorem circuit_breaker_lifecycle (F : Nat) (R : Int) (hF : 1 ≤ F) :
    (∀ ts : List Int, ts.length = F →
      (cbRun (CircuitBreaker.mk0 F R) (ts.map fun x => (x, false))).1 =
          ts.map (fun _ => CbOutcome.executed false)
      ∧ (cbRun (CircuitBreaker.mk0 F R) (ts.map fun x => (x, false))).2.state = .open)
    ∧ (∀ b : CircuitBreaker, b.state = .open → b.recoveryTimeout = R →
        ∀ now s, now - b.lastFailureTime < R →
          cbCall b now s = (.rejected (R - (now - b.lastFailureTime)), b))
    ∧ (∀ b : CircuitBreaker, b.state = .open → b.recoveryTimeout = R →
        ∀ now, R ≤ now - b.lastFailureTime →
          (∀ s, (cbCall b now s).1 = .executed s)
          ∧ (cbCall b now true).2.state = .closed
          ∧ (cbCall b now true).2.failureCount = 0
          ∧ (cbCall b now false).2.state = .open
          ∧ (cbCall b now false).2.lastFailureTime = now
          ∧ (cbCall b now false).2.recoveryTimeout = R
          ∧ (∀ t s2, t - now < R →
              (cbCall (cbCall b now false).2 t s2).1 = .rejected (R - (t - now)))) := by
  refine ⟨?_, ?_, ?_⟩
  · intro ts hlen
    refine cbRun_failures ts (CircuitBreaker.mk0 F R) rfl
      (by simp [CircuitBreaker.mk0, hlen]) ?_
    intro hnil
    rw [hnil] at hlen
    simp at hlen
    omega
  · intro b hst hR now s helapsed
    subst hR
    exact cbCall_open_rejects b now s hst helapsed
  · intro b hst hR now helapsed
    subst hR
    have hrec : b.state = .open ∧ b.recoveryTimeout ≤ now - b.lastFailureTime :=
      ⟨hst, by omega⟩
    have hcall : ∀ s : Bool, cbCall b now s =
        (if s then (.executed s, recordSuccess { b with state := .halfOpen })
         else (.executed s, recordFailure { b with state := .halfOpen } now)) := by
      intro s
      unfold cbCall
      simp only [if_pos hrec]
      cases s <;> simp
    have hfail : cbCall b now false =
        (.executed false, recordFailure { b with state := .halfOpen } now) := by
      simpa using hcall false
    have hsucc : cbCall b now true =
        (.executed true, recordSuccess { b with state := .halfOpen }) := by
      simpa using hcall true
    have hrecF : recordFailure { b with state := .halfOpen } now =
        { b with state := .open, failureCount := b.failureCount + 1,
                 lastFailureTime := now } := by
      unfold recordFailure
      simp
    refine ⟨fun s => by cases s <;> simp [hfail, hsucc], ?_, ?_, ?_, ?_, ?_, ?_⟩
    · simp [hsucc, recordSuccess]
    · simp [hsucc, recordSuccess]
    · simp [hfail, hrecF]
    · simp [hfail, hrecF]
    · simp [hfail, hrecF]
    · intro t s2 ht
      rw [hfail]
      simp only [hrecF]
      have hrej := cbCall_open_rejects
        { b with state := CircuitState.open,
                 failureCount := b.failureCount + 1,
                 lastFailureTime := now } t s2 rfl (by simpa using ht)
      simp [hrej]

/-- Witness for C2 at `F = 2`, `R = 30`. -/
theorem circuit_breaker_lifecycle_witness :
    ((cbRun (CircuitBreaker.mk0 2 30) (([0, 1] : List Int).map fun x => (x, false))).2.state
        = .open)
    ∧ cbCall ⟨.open, 2, 1, 2, 30⟩ 10 true = (.rejected (30 - (10 - 1)), ⟨.open, 2, 1, 2, 30⟩)
    ∧ (cbCall ⟨.open, 2, 1, 2, 30⟩ 31 true).2.state = .closed := by
  have h := circuit_breaker_lifecycle 2 30 (by decide)
  refine ⟨(h.1 [0, 1] (by decide)).2, ?_, ?_⟩
  · exact h.2.1 ⟨.open, 2, 1, 2, 30⟩ rfl rfl 10 true (by decide)
  · exact (h.2.2 ⟨.open, 2, 1, 2, 30⟩ rfl rfl 31 (by decide)).2.1

/-! Claim-CAS helper lemmas -/

theorem claimMatches_iff (sid : String) (r : SessionRow) :
    claimMatches sid r = true ↔ r.sessionId = sid ∧ r.username = none := by
  simp [claimMatches]

theorem claimUpdateRow_no (sid u : String) (now : Int) (r : SessionRow)
    (h : ¬ (r.sessionId = sid ∧ r.username = none)) :
    claimUpdateRow sid u now r = r := by
  unfold claimUpdateRow
  rw [if_neg h]

theorem claimUpdateRow_yes (sid u : String) (now : Int) (r : SessionRow)
    (h1 : r.sessionId = sid) (h2 : r.username = none) :
    claimUpdateRow sid u now r =
      { r with username := some u, updatedAt := some now } := by
  unfold claimUpdateRow
  rw [if_pos ⟨h1, h2⟩]

theorem mapIdOn {α : Type} (l : List α) (f : α → α) (h : ∀ x ∈ l, f x = x) :
    l.map f = l := by
  induction l with
  | nil => rfl
  | cons x xs ih =>
      simp only [List.map_cons]
      rw [h x (List.mem_cons_self x xs),
          ih (fun y hy => h y (List.mem_cons_of_mem x hy))]

/-- A claim whose WHERE clause matches no row returns false and leaves
the table untouched (`rowcount = 0`). -/
theorem claim_no_match (sid u : String) (now : Int) (t : Table)
    (h : ∀ r ∈ t, ¬ (r.sessionId = sid ∧ r.username = none)) :
    claim_pool_session sid u now t = .ok (t, false) := by
  have hcount : t.countP (claimMatches sid) = 0 :=
    List.countP_eq_zero.mpr fun r hr => by
      simpa [claimMatches_iff] using h r hr
  have hmap : t.map (claimUpdateRow sid u now) = t :=
    mapIdOn t _ (fun r hr => claimUpdateRow_no sid u now r (h r hr))
  simp only [claim_pool_session, hcount, hmap]
  simp

/-- A table with no unclaimed row for `sid` never grants a claim. -/
theorem runClaims_no_pool (sid : String) (now : Int) :
    ∀ (us : List String) (t : Table),
      (∀ r ∈ t, ¬ (r.sessionId = sid ∧ r.username = none)) →
      (runClaims sid now us t).2.count true = 0 := by
  intro us
  induction us with
  | nil => intro t _; simp [runClaims]
  | cons v rest ih =>
      intro t h
      unfold runClaims
      simp only [claim_no_match sid v now t h]
      rcases hr : runClaims sid now rest t with ⟨tf, bs⟩
      have h0 := ih t h
      rw [hr] at h0
      simpa using h0

/-- The primary key: in a well-formed table no row outside the
distinguished occurrence of `r₁` carries `r₁`'s session id. -/
theorem no_other_sid (t₁ t₂ : List SessionRow) (r₁ : SessionRow) (sid : String)
    (hwf : wellFormed (t₁ ++ r₁ :: t₂)) (hsid : r₁.sessionId = sid) :
    ∀ r ∈ t₁ ++ t₂, r.sessionId ≠ sid := by
  unfold wellFormed at hwf
  rw [List.map_append, List.map_cons, List.nodup_middle, List.nodup_cons] at hwf
  intro r hr hcontra
  apply hwf.1
  rw [← List.map_append]
  exact List.mem_map.mpr ⟨r, hr, hcontra.trans hsid.symm⟩

/-- The successful CAS: on a table holding exactly one unclaimed row for
`sid` (and `v` not already taken, so the partial unique index does not
fire), the claim returns true and rewrites exactly that row. -/
theorem claim_success_decomp (t₁ t₂ : List SessionRow) (r₁ : SessionRow)
    (sid v : String) (now : Int)
    (hsid : r₁.sessionId = sid) (husr : r₁.username = none)
    (hno : ∀ r ∈ t₁ ++ t₂, r.sessionId ≠ sid)
    (hfresh : usernameTaken (t₁ ++ r₁ :: t₂) v = false) :
    claim_pool_session sid v now (t₁ ++ r₁ :: t₂) =
      .ok (t₁ ++ { r₁ with username := some v, updatedAt := some now } :: t₂,
           true) := by
  have hm1 : claimMatches sid r₁ = true := by
    rw [claimMatches_iff]; exact ⟨hsid, husr⟩
  have hmem : r₁ ∈ t₁ ++ r₁ :: t₂ :=
    List.mem_append.mpr (Or.inr (List.mem_cons_self r₁ t₂))
  have hpos : 0 < (t₁ ++ r₁ :: t₂).countP (claimMatches sid) :=
    List.countP_pos_iff.mpr ⟨r₁, hmem, hm1⟩
  have hcnd : ¬ (0 < (t₁ ++ r₁ :: t₂).countP (claimMatches sid) ∧
      usernameTaken (t₁ ++ r₁ :: t₂) v) := by
    rintro ⟨_, htaken⟩
    simp [hfresh] at htaken
  simp only [claim_pool_session]
  rw [if_neg hcnd]
  rw [List.map_append, List.map_cons]
  rw [mapIdOn t₁ _ (fun r hr =>
        claimUpdateRow_no sid v now r (fun hc => hno r (by simp [hr]) hc.1)),
      mapIdOn t₂ _ (fun r hr =>
        claimUpdateRow_no sid v now r (fun hc => hno r (by simp [hr]) hc.1)),
      claimUpdateRow_yes sid v now r₁ hsid husr]
  rw [decide_eq_true hpos]

theorem usernameTaken_false_iff (t : Table) (u : String) :
    usernameTaken t u = false ↔ ∀ r ∈ t, r.username ≠ some u := by
  simp [usernameTaken]

theorem not_mem_nonNull (t : Table) (u : String)
    (h : usernameTaken t u = false) : u ∉ nonNullUsernames t := by
  rw [usernameTaken_false_iff] at h
  intro hmem
  rcases List.mem_filterMap.mp hmem with ⟨r, hr, hru⟩
  exact h r hr hru

/-- Claim C1.  `claim_pool_session(sid, u)` on a well-formed table with
`u` not yet taken: it succeeds, returning true iff a row with that
session id and NULL username existed; on false the table is unchanged;
on true exactly that one row has its username set (and `updated_at`
stamped) while every other row is untouched and was not an eligible
candidate; the at-most-one-session-per-username invariant of the
partial unique index is preserved.  Moreover, for any non-empty
serialization of concurrent claims on the same pool session (all
claimants fresh), exactly one claim returns true. -/
theorem claim_pool_session_cas
    (t : Table) (sid u : String) (now : Int)
    (hwf : wellFormed t)
    (hfresh : usernameTaken t u = false) :
    (∃ t' b, claim_pool_session sid u now t = .ok (t', b)
      ∧ (b = true ↔ ∃ r ∈ t, r.sessionId = sid ∧ r.username = none)
      ∧ (b = false → t' = t)
      ∧ (b = true → ∃ t₁ r₁ t₂, t = t₁ ++ r₁ :: t₂
            ∧ r₁.sessionId = sid ∧ r₁.username = none
            ∧ t' = t₁ ++ { r₁ with username := some u, updatedAt := some now } :: t₂
            ∧ ∀ r ∈ t₁ ++ t₂, ¬ (r.sessionId = sid ∧ r.username = none))
      ∧ ((nonNullUsernames t).Nodup → (nonNullUsernames t').Nodup))
    ∧ (∀ us : List String, us ≠ [] →
        (∀ v ∈ us, usernameTaken t v = false) →
        (∃ r ∈ t, r.sessionId = sid ∧ r.username = none) →
        (runClaims sid now us t).2.count true = 1) := by
  by_cases hpool : ∃ r ∈ t, r.sessionId = sid ∧ r.username = none
  · obtain ⟨r₁, hr₁, hsid, husr⟩ := hpool
    obtain ⟨t₁, t₂, rfl⟩ := List.mem_iff_append.mp hr₁
    have hno := no_other_sid t₁ t₂ r₁ sid hwf hsid
    have hnopool2 : ∀ r ∈ t₁ ++
        { r₁ with username := some u, updatedAt := some now } :: t₂,
        ¬ (r.sessionId = sid ∧ r.username = none) := by
      intro r hr hc
      rcases List.mem_append.mp hr with h1 | h2
      · exact hno r (List.mem_append.mpr (Or.inl h1)) hc.1
      · rcases List.mem_cons.mp h2 with h3 | h4
        · rw [h3] at hc
          exact Option.some_ne_none u hc.2.symm.symm
        · exact hno r (List.mem_append.mpr (Or.inr h4)) hc.1
    constructor
    · refine ⟨_, true, claim_success_decomp t₁ t₂ r₁ sid u now hsid husr hno hfresh,
        ?_, ?_, ?_, ?_⟩
      · have hmem : r₁ ∈ t₁ ++ r₁ :: t₂ :=
          List.mem_append.mpr (Or.inr (List.mem_cons_self r₁ t₂))
        exact ⟨fun _ => ⟨r₁, hmem, hsid, husr⟩, fun _ => rfl⟩
      · intro hb; exact absurd hb (by decide)
      · intro _
        exact ⟨t₁, r₁, t₂, rfl, hsid, husr, rfl,
          fun r hr hc => hno r hr hc.1⟩
      · intro hnd
        have hA : nonNullUsernames (t₁ ++ r₁ :: t₂) =
            nonNullUsernames t₁ ++ nonNullUsernames t₂ := by
          unfold nonNullUsernames
          rw [List.filterMap_append]
          simp [List.filterMap_cons, husr]
        have hB : nonNullUsernames
            (t₁ ++ { r₁ with username := some u, updatedAt := some now } :: t₂) =
            nonNullUsernames t₁ ++ u :: nonNullUsernames t₂ := by
          unfold nonNullUsernames
          rw [List.filterMap_append]
          simp [List.filterMap_cons]
        rw [hB, List.nodup_middle]
        rw [hA] at hnd
        have hu : u ∉ nonNullUsernames t₁ ++ nonNullUsernames t₂ := by
          have hnm := not_mem_nonNull _ u hfresh
          rw [hA] at hnm
          exact hnm
        exact List.nodup_cons.mpr ⟨hu, hnd⟩
    · intro us hus hfreshAll _
      cases us with
      | nil => exact absurd rfl hus
      | cons v rest =>
          have hclaimv := claim_success_decomp t₁ t₂ r₁ sid v now hsid husr hno
            (hfreshAll v (List.mem_cons_self v rest))
          unfold runClaims
          simp only [hclaimv]
          rcases hr2 : runClaims sid now rest
            (t₁ ++ { r₁ with username := some v, updatedAt := some now } :: t₂)
            with ⟨tf, bs⟩
          have h0 := runClaims_no_pool sid now rest
            (t₁ ++ { r₁ with username := some v, updatedAt := some now } :: t₂)
            (by
              intro r hr hc
              rcases List.mem_append.mp hr with h1 | h2
              · exact hno r (List.mem_append.mpr (Or.inl h1)) hc.1
              · rcases List.mem_cons.mp h2 with h3 | h4
                · rw [h3] at hc
                  exact Option.some_ne_none v hc.2.symm.symm
                · exact hno r (List.mem_append.mpr (Or.inr h4)) hc.1)
          rw [hr2] at h0
          simpa using h0
  · have hno' : ∀ r ∈ t, ¬ (r.sessionId = sid ∧ r.username = none) :=
      fun r hr hc => hpool ⟨r, hr, hc⟩
    constructor
    · refine ⟨t, false, claim_no_match sid u now t hno', ?_, fun _ => rfl, ?_, ?_⟩
      · exact ⟨fun hb => absurd hb (by decide), fun hex => absurd hex hpool⟩
      · intro hb; exact absurd hb (by decide)
      · intro hnd; exact hnd
    · intro us _ _ hex
      exact absurd hex hpool

/-- Witness for C1: one pool row, two racing claimants, exactly one
winner. -/
theorem claim_pool_session_cas_witness :
    wellFormed poolTable
    ∧ usernameTaken poolTable "dave" = false
    ∧ (runClaims "p1" 100000 ["dave", "erin"] poolTable).2.count true = 1 := by
  have h := claim_pool_session_cas poolTable "p1" "dave" 100000 (by decide) (by decide)
  exact ⟨by decide, by decide,
    h.2 ["dave", "erin"] (by decide) (by decide) (by decide)⟩

end Broker
